import Mathlib

/-!
# Strip-chart widget (`Graph.cpp`): embedding and verified properties

The development embeds `Graphable::GetSeries`, `Graph::on_draw`, `Graph::DrawSeries`,
`Graph::valueToPosition` and `Graph::timeToPosition` of `src/Graph.cpp`.

Modelling conventions
* `float` / `double` quantities are rationals (exact arithmetic); every place where the
  source stores such a value in an `int` is an explicit truncation toward zero (`toInt`).
* `int` is 32 bits wide. The counter `dt` of the vertical-grid loop is the one `int` that is
  accumulated without bound: an increment that leaves the range of `int` is undefined
  behaviour and ends the frame with the fault `intOverflow`. Pixel coordinates stored in an
  `int` local are single conversions and are taken to be in range.
* `Graph.h` is not among the sources, so the numeric members of `Graph` are all carried as
  rationals: an integer-typed member is then simply a member holding an integer value.
* Cairo calls are recorded, in order, as a list of `Cmd`.
* Pango text measurement, `printf` of floating values, the clock and the Gtk allocation are
  external and enter through `Env`.
* `Series*` pointers are addresses into an explicit heap of `Series` objects.
* The two grid loops have no static bound in the source; they are run with a fuel counter and
  do not answer a result when the fuel runs out.
* Rational division by zero is `0` in Lean; wherever a quotient by `m_maxScale - m_minScale`
  matters the theorems assume `m_minScale < m_maxScale`.
-/

namespace GraphWidget

/-! ## Data model -/

/-- One sample of a series: `lit->time`, `lit->value`. -/
structure Sample where
  time : ℚ
  value : ℚ
  deriving DecidableEq, Repr

/-- A series is the ordered sequence of its samples. -/
abbrev Series := List Sample

/-- Value of a `Series*`. -/
inductive Ptr where
  | null
  | addr (n : Nat)
  deriving DecidableEq, Repr

/-- The free store holding every `Series` created by `new Series`. -/
abbrev Heap := List Series

/-- Dereference of a `Series*`; `none` when the pointer does not designate an object. -/
def Heap.deref (h : Heap) : Ptr → Option Series
  | Ptr.null => none
  | Ptr.addr n => h[n]?

/-- The expression `new Series`: a fresh address holding an empty series. -/
def Heap.newSeries (h : Heap) : Ptr × Heap :=
  (Ptr.addr h.length, h ++ [[]])

/-- The member `std::map<std::string, Series*> m_series` as a list of key/value entries. -/
abbrev SeriesMap := List (String × Ptr)

/-- Call `m.find(k)`; `none` stands for `m.end()`. -/
def SeriesMap.find (m : SeriesMap) (k : String) : Option Ptr :=
  m.lookup k

/-- Read access `m[k]`: a missing key is first inserted with a null pointer. -/
def SeriesMap.index (m : SeriesMap) (k : String) : Ptr × SeriesMap :=
  match m.find k with
  | some p => (p, m)
  | none => (Ptr.null, m ++ [(k, Ptr.null)])

/-- Write access `m[k] = v`. -/
def SeriesMap.assign (m : SeriesMap) (k : String) (v : Ptr) : SeriesMap :=
  match m.find k with
  | some _ => m.map (fun e => if e.1 == k then (e.1, v) else e)
  | none => m ++ [(k, v)]

/-- Colour as the three components read by `get_red_p`, `get_green_p`, `get_blue_p`. -/
structure Color where
  red : ℚ
  green : ℚ
  blue : ℚ
  deriving DecidableEq, Repr

/-- A data source: `m_visible` is the answer of the virtual `visible()`. -/
structure Graphable where
  m_name : String
  m_color : Color
  m_visible : Bool
  m_series : SeriesMap
  deriving DecidableEq, Repr

/-- Method `Graphable::GetSeries` (lines 67-72): the returned pointer, the object and the
heap after the call. -/
def Graphable.GetSeries (g : Graphable) (h : Heap) (name : String) :
    Ptr × Graphable × Heap :=
  let created : SeriesMap × Heap :=
    if g.m_series.find name = none then
      let fresh := h.newSeries
      (g.m_series.assign name fresh.1, fresh.2)
    else (g.m_series, h)
  let read := created.1.index name
  (read.1, { g with m_series := read.2 }, created.2)

/-- The members of `Graph` used by the drawing code. -/
structure Graph where
  m_series : List Graphable
  m_seriesName : String
  m_minScale : ℚ
  m_maxScale : ℚ
  m_scaleBump : ℚ
  m_units : String
  m_unitScale : ℚ
  m_yAxisTitle : String
  m_timeScale : ℚ
  m_timeTick : ℚ
  m_lineWidth : ℚ
  m_minRedline : ℚ
  m_maxRedline : ℚ
  m_drawLegend : Bool
  m_lmargin : ℚ
  m_rmargin : ℚ
  m_tmargin : ℚ
  m_bmargin : ℚ
  m_width : ℚ
  m_height : ℚ
  m_now : ℚ
  m_bottom : ℚ
  m_top : ℚ
  m_left : ℚ
  m_right : ℚ
  m_bodywidth : ℚ
  m_bodyheight : ℚ
  m_pheight : ℚ

/-- State left by the constructor `Graph::Graph` (lines 88-115); the members the
constructor does not initialise are set to `0`. -/
def Graph.init : Graph where
  m_series := []
  m_seriesName := ""
  m_minScale := 0
  m_maxScale := 100
  m_scaleBump := 10
  m_units := "%"
  m_unitScale := 1
  m_yAxisTitle := ""
  m_timeScale := 10
  m_timeTick := 10
  m_lineWidth := 1
  m_minRedline := -1
  m_maxRedline := 101
  m_drawLegend := true
  m_lmargin := 70
  m_rmargin := 20
  m_tmargin := 10
  m_bmargin := 20
  m_width := 0
  m_height := 0
  m_now := 0
  m_bottom := 0
  m_top := 0
  m_left := 0
  m_right := 0
  m_bodywidth := 0
  m_bodyheight := 0
  m_pheight := 0

/-- Cairo / Pango calls issued on the drawing context. -/
inductive Cmd where
  | save
  | restore
  | rectangle (x y w h : ℚ)
  | clip
  | fill
  | stroke
  | set_source_rgb (r g b : ℚ)
  | set_line_width (w : ℚ)
  | set_dash (dashes : List ℚ) (offset : ℚ)
  | unset_dash
  | move_to (x y : ℚ)
  | line_to (x y : ℚ)
  | rotate_minus_quarter_turn
  | show_layout (text : String)
  deriving DecidableEq, Repr

/-- What the frame obtains from outside the program. -/
structure Env where
  /-- Whether `get_bin_window()` returns a window. -/
  window : Bool
  /-- Allocation width, `allocation.get_width()`. -/
  width : Int
  /-- Allocation height, `allocation.get_height()`. -/
  height : Int
  /-- Result of `GetTime()`. -/
  now : ℚ
  /-- Pixel size `(width, height)` computed by `GetStringWidth`. -/
  measure : String → Int × Int
  /-- Width of the logical extents, in Pango units, read by `DrawStringVertical`. -/
  logicalWidth : String → Int
  /-- Text produced by `printf` for the conversion `%.Nf`, given `N` and the value. -/
  fmtFloat : Nat → ℚ → String

/-- Ways in which a frame can fail to complete. -/
inductive Fault where
  /-- A grid loop was still running when the fuel ran out. -/
  | outOfFuel
  /-- `pSeries->begin()` was dereferenced although the series has no element. -/
  | derefEnd
  /-- A `Series*` that designates no object was dereferenced. -/
  | badPointer
  /-- The increment `dt += m_timeTick` left the range of `int`. -/
  | intOverflow
  deriving DecidableEq, Repr

/-! ## Coordinate mapping -/

/-- Conversion of a floating value to `int`: truncation toward zero. -/
def toInt (q : ℚ) : Int :=
  Int.tdiv q.num q.den

/-- Largest value of a 32-bit `int`. -/
def INT_MAX : Int := 2147483647

/-- Smallest value of a 32-bit `int`. -/
def INT_MIN : Int := -2147483648

/-- Whether an integer is a value of the type `int`. -/
def fitsInt (z : Int) : Bool :=
  decide (INT_MIN ≤ z ∧ z ≤ INT_MAX)

/-- Method `Graph::valueToPosition` (lines 365-370). -/
def valueToPosition (g : Graph) (val : ℚ) : ℚ :=
  let range := g.m_maxScale - g.m_minScale
  let scale := g.m_bodyheight / range
  g.m_top + g.m_bodyheight - (val - g.m_minScale) * scale

/-- Method `Graph::timeToPosition` (lines 372-375). -/
def timeToPosition (g : Graph) (time : ℚ) : ℚ :=
  g.m_right - ((g.m_now - time) * g.m_timeScale)

/-! ## Text helpers -/

/-- Function `DrawString` (lines 436-453). -/
def DrawString (x y : ℚ) (str : String) : List Cmd :=
  [Cmd.save, Cmd.move_to x y, Cmd.show_layout str, Cmd.restore]

/-- Function `DrawStringVertical` (lines 398-425); `Pango::SCALE` is 1024. -/
def DrawStringVertical (env : Env) (x y : ℚ) (str : String) : List Cmd :=
  let delta : Int := Int.tdiv (Int.tdiv (env.logicalWidth str) 2) 1024
  [Cmd.save, Cmd.set_line_width 1, Cmd.move_to x (y + delta),
   Cmd.rotate_minus_quarter_turn, Cmd.show_layout str, Cmd.stroke, Cmd.restore]

/-! ## Series line -/

/-- The `for` loop of `DrawSeries` (lines 342-359) over the samples after the first, with
the two remembered raw positions `y_prev1`, `y_prev2`. -/
def DrawSeries.loop (g : Graph) : List Sample → ℚ → ℚ → List Cmd
  | [], _, _ => []
  | s :: rest, y_prev1, y_prev2 =>
    let x := timeToPosition g s.time
    let y := valueToPosition g s.value
    if x < 0 then
      Cmd.move_to 0 y :: DrawSeries.loop g rest y_prev1 y_prev2
    else
      let ya := (y + y_prev1 + y_prev2) / 3
      Cmd.line_to x ya :: DrawSeries.loop g rest y y_prev1

/-- Method `Graph::DrawSeries` (lines 326-363) on the series the pointer designates.
Reading `*pSeries->begin()` of a series without elements is the fault `derefEnd`. -/
def DrawSeries (g : Graph) (series : Series) (color : Color) : Except Fault (List Cmd) :=
  match series with
  | [] => Except.error Fault.derefEnd
  | first :: rest =>
    let y_prev1 := valueToPosition g first.value
    let y_prev2 := y_prev1
    Except.ok
      ([Cmd.set_line_width g.m_lineWidth,
        Cmd.set_source_rgb color.red color.green color.blue,
        Cmd.save,
        Cmd.rectangle g.m_left g.m_top g.m_bodywidth g.m_bodyheight,
        Cmd.clip,
        Cmd.move_to (timeToPosition g first.time) y_prev1]
        ++ DrawSeries.loop g rest y_prev1 y_prev2
        ++ [Cmd.stroke, Cmd.restore])

/-! ## The frame -/

/-- Geometry assignments of `on_draw` (lines 137-143). -/
def calcDimensions (g : Graph) : Graph :=
  let m_bottom := g.m_height - g.m_bmargin
  let m_top := g.m_tmargin
  let m_left := g.m_lmargin
  let m_right := g.m_width - g.m_rmargin
  let m_bodywidth := m_right - m_left
  let m_bodyheight := m_bottom - m_top
  { g with
    m_bottom := m_bottom
    m_top := m_top
    m_left := m_left
    m_right := m_right
    m_bodywidth := m_bodywidth
    m_bodyheight := m_bodyheight
    m_pheight := m_bodyheight / (g.m_maxScale - g.m_minScale) }

/-- Running values of the legend-size loop (lines 146-158). -/
structure LegendSize where
  lineheight : Int
  legendw : Int
  legendh : Int
  deriving DecidableEq, Repr

/-- Legend-size loop of `on_draw` (lines 150-158); `legendvspace` is 5. -/
def legendSize (env : Env) : List Graphable → LegendSize → LegendSize
  | [], acc => acc
  | s :: rest, acc =>
    let wh := env.measure s.m_name
    let legendw := if wh.1 > acc.legendw then wh.1 else acc.legendw
    let lineheight := 5 + wh.2
    legendSize env rest
      { lineheight := lineheight, legendw := legendw, legendh := acc.legendh + lineheight }

/-- Whether the band below the lower redline is filled (guard of line 171). -/
def minRedlineDrawn (g : Graph) : Bool :=
  decide (g.m_minRedline > g.m_minScale)

/-- Whether the band above the upper redline is filled (guard of line 179). -/
def maxRedlineDrawn (g : Graph) : Bool :=
  decide (g.m_maxRedline < g.m_maxScale)

/-- Band from the lower redline down to the bottom edge (lines 173-177). -/
def minRedlineBand (g : Graph) : List Cmd :=
  [Cmd.move_to g.m_left (valueToPosition g g.m_minRedline),
   Cmd.line_to g.m_right (valueToPosition g g.m_minRedline),
   Cmd.line_to g.m_right g.m_bottom,
   Cmd.line_to g.m_left g.m_bottom,
   Cmd.fill]

/-- Band from the upper redline up to the top edge (lines 181-185). -/
def maxRedlineBand (g : Graph) : List Cmd :=
  [Cmd.move_to g.m_left (valueToPosition g g.m_maxRedline),
   Cmd.line_to g.m_right (valueToPosition g g.m_maxRedline),
   Cmd.line_to g.m_right g.m_top,
   Cmd.line_to g.m_left g.m_top,
   Cmd.fill]

/-- Redline section of `on_draw` (lines 169-186). -/
def redlines (g : Graph) : List Cmd :=
  [Cmd.set_source_rgb 1 (4 / 5) (4 / 5)]
    ++ (if minRedlineDrawn g then minRedlineBand g else [])
    ++ (if maxRedlineDrawn g then maxRedlineBand g else [])

/-- Conversion `%02d` of `printf`. -/
def fmt02d (n : Int) : String :=
  let s := toString n
  if s.length < 2 then "0" ++ s else s

/-- Label of a vertical grid line (lines 217-223). -/
def timeLabel (g : Graph) (dt : Int) : String :=
  if g.m_timeTick < 3600 then
    toString (Int.tdiv dt 60) ++ ":" ++ fmt02d (Int.tmod dt 60)
  else if g.m_timeTick < 86400 then
    toString (Int.tdiv dt 3600) ++ ":" ++ fmt02d (Int.tdiv (Int.tmod dt 3600) 60)
  else
    toString (Int.tdiv dt 86400)

/-- Cairo calls of one pass through the vertical-grid loop body (lines 207-232), for the
counter value `dt`. -/
def verticalGridLine (g : Graph) (dt : Int) : List Cmd :=
  let pos := timeToPosition g (g.m_now - dt)
  let ipos := toInt pos
  let texty := toInt (g.m_bottom + 5)
  [Cmd.set_dash [1] 0,
   Cmd.set_line_width (1 / 2),
   Cmd.move_to (ipos + 1 / 2) (g.m_bottom + 1 / 2),
   Cmd.line_to (pos + 1 / 2) g.m_top,
   Cmd.stroke,
   Cmd.unset_dash,
   Cmd.set_line_width 1]
    ++ DrawString (pos - 20) texty (timeLabel g dt)

/-- Bottom-margin update at the end of the vertical-grid loop body (lines 234-236). -/
def bumpBottomMargin (env : Env) (g : Graph) (dt : Int) (bmargin : ℚ) : ℚ :=
  let yw := (env.measure (timeLabel g dt)).2
  if bmargin < yw + 5 then yw + 5 else bmargin

/-- Vertical-grid loop `for(int dt=0; ; dt += m_timeTick)` (lines 200-237), started at the
counter value `dt` with the current `m_bmargin`; answers the final `m_bmargin` and the calls
issued. The increment is evaluated after the loop body and faults with `intOverflow` when
its value is not an `int`; exhausted fuel is the fault `outOfFuel`. -/
def verticalGrid (env : Env) (g : Graph) : Nat → Int → ℚ → Except Fault (ℚ × List Cmd)
  | 0, _, _ => Except.error Fault.outOfFuel
  | fuel + 1, dt, bmargin =>
    let pos := timeToPosition g (g.m_now - dt)
    if pos ≤ g.m_left then Except.ok (bmargin, [])
    else
      let next := toInt (dt + g.m_timeTick)
      if fitsInt next then
        match verticalGrid env g fuel next (bumpBottomMargin env g dt bmargin) with
        | Except.error e => Except.error e
        | Except.ok (b, rest) => Except.ok (b, verticalGridLine g dt ++ rest)
      else Except.error Fault.intOverflow

/-- Label of a horizontal grid line (lines 254-261). -/
def valueLabel (env : Env) (g : Graph) (i : ℚ) : String :=
  let buf0 := env.fmtFloat 0 (i * g.m_unitScale) ++ " " ++ g.m_units
  let buf1 := if g.m_unitScale ≤ 1 / 10 then
      env.fmtFloat 1 (i * g.m_unitScale) ++ " " ++ g.m_units else buf0
  let buf2 := if g.m_unitScale ≤ 1 / 100 then
      env.fmtFloat 2 (i * g.m_unitScale) ++ " " ++ g.m_units else buf1
  if g.m_unitScale ≤ 1 / 1000 then
    env.fmtFloat 3 (i * g.m_unitScale) ++ " " ++ g.m_units else buf2

/-- Local `xleft` of the horizontal-grid loop body (line 269). -/
def labelLeft (env : Env) (g : Graph) (i : ℚ) : Int :=
  toInt (g.m_left - (env.measure (valueLabel env g i)).1 - 5)

/-- Cairo calls of one pass through the horizontal-grid loop body (lines 240-270), for the
loop variable `i`. -/
def horizontalGridLine (env : Env) (g : Graph) (i : ℚ) : List Cmd :=
  let pos := valueToPosition g i
  let ipos := toInt pos
  [Cmd.set_dash [1] 0,
   Cmd.set_line_width (1 / 2),
   Cmd.move_to g.m_left (ipos + 1 / 2),
   Cmd.line_to g.m_right (ipos + 1 / 2),
   Cmd.stroke,
   Cmd.stroke,
   Cmd.unset_dash,
   Cmd.set_line_width 1]
    ++ DrawString (labelLeft env g i) (pos - 5) (valueLabel env g i)

/-- Left-margin update at the end of the horizontal-grid loop body (lines 272-274). -/
def bumpLeftMargin (env : Env) (g : Graph) (i : ℚ) (lmargin : ℚ) : ℚ :=
  let xw := (env.measure (valueLabel env g i)).1
  if labelLeft env g i < 5 then xw + 5 else lmargin

/-- Horizontal-grid loop `for(float i=m_minScale + m_scaleBump; i<=m_maxScale;
i += m_scaleBump)` (lines 238-275), started at the value `i` with the current `m_lmargin`;
answers the final `m_lmargin` and the calls issued, or `none` when the fuel is exhausted. -/
def horizontalGrid (env : Env) (g : Graph) : Nat → ℚ → ℚ → Option (ℚ × List Cmd)
  | 0, _, _ => none
  | fuel + 1, i, lmargin =>
    if i ≤ g.m_maxScale then
      match horizontalGrid env g fuel (i + g.m_scaleBump) (bumpLeftMargin env g i lmargin) with
      | none => none
      | some (l, rest) => some (l, horizontalGridLine env g i ++ rest)
    else some (lmargin, [])

/-- Loop drawing the plotted series of every child (lines 280-286). -/
def drawChildren (g : Graph) (heap : Heap) : List Graphable → Except Fault (List Cmd)
  | [] => Except.ok []
  | pNode :: rest =>
    if pNode.m_visible && (pNode.m_series.find g.m_seriesName).isSome then
      match heap.deref (pNode.m_series.index g.m_seriesName).1 with
      | none => Except.error Fault.badPointer
      | some series =>
        match DrawSeries g series pNode.m_color with
        | Except.error e => Except.error e
        | Except.ok cmds =>
          match drawChildren g heap rest with
          | Except.error e => Except.error e
          | Except.ok more => Except.ok (cmds ++ more)
    else drawChildren g heap rest

/-- Legend text loop (lines 303-317), with the running baseline `y`. -/
def legendText (g : Graph) (lineheight : Int) : List Graphable → Int → List Cmd
  | [], _ => []
  | pSeries :: rest, y =>
    [Cmd.set_source_rgb pSeries.m_color.red pSeries.m_color.green pSeries.m_color.blue]
      ++ DrawString (g.m_left + 2 + 2) y pSeries.m_name
      ++ legendText g lineheight rest (y + lineheight)

/-- Legend section of `on_draw` (lines 288-318); `legendmargin` and `legendoffset` are 2. -/
def legend (g : Graph) (sz : LegendSize) : List Cmd :=
  if g.m_drawLegend then
    let legendright : Int := toInt (g.m_left + sz.legendw + 2 * 2 + 2)
    [Cmd.set_source_rgb 1 1 1,
     Cmd.move_to (g.m_left + 2) (g.m_top + 2),
     Cmd.line_to (g.m_left + 2) (sz.legendh + 2 * 2 + g.m_top + 2),
     Cmd.line_to legendright (sz.legendh + 2 * 2 + g.m_top + 2),
     Cmd.line_to legendright (g.m_top + 2),
     Cmd.fill]
      ++ legendText g sz.lineheight g.m_series (2 + sz.lineheight + 2)
  else []

/-- Method `Graph::on_draw` (lines 121-324): the state of the chart after the frame and the
Cairo calls issued during it. -/
def on_draw (fuel : Nat) (env : Env) (heap : Heap) (g : Graph) :
    Except Fault (Graph × List Cmd) :=
  if env.window then
    let g0 : Graph := calcDimensions
      { g with m_width := env.width, m_height := env.height, m_now := env.now }
    let sz := legendSize env g0.m_series { lineheight := 0, legendw := 0, legendh := 0 }
    let head : List Cmd :=
      [Cmd.save,
       Cmd.rectangle 0 0 g0.m_width g0.m_height,
       Cmd.clip,
       Cmd.set_source_rgb 1 1 1,
       Cmd.rectangle g0.m_left g0.m_top g0.m_bodywidth g0.m_bodyheight,
       Cmd.fill]
        ++ redlines g0
        ++ [Cmd.set_line_width 1,
            Cmd.set_source_rgb 0 0 0,
            Cmd.move_to (g0.m_left + 1 / 2) g0.m_top,
            Cmd.line_to (g0.m_left + 1 / 2) (g0.m_bottom + 1 / 2),
            Cmd.line_to (g0.m_right + 1 / 2) (g0.m_bottom + 1 / 2),
            Cmd.stroke]
    match verticalGrid env g0 fuel 0 g0.m_bmargin with
    | Except.error e => Except.error e
    | Except.ok (bmargin, vcmds) =>
      match horizontalGrid env g0 fuel (g0.m_minScale + g0.m_scaleBump) g0.m_lmargin with
      | none => Except.error Fault.outOfFuel
      | some (lmargin, hcmds) =>
        let g1 : Graph := { g0 with m_bmargin := bmargin, m_lmargin := lmargin }
        match drawChildren g1 heap g1.m_series with
        | Except.error e => Except.error e
        | Except.ok scmds =>
          Except.ok (g1,
            head ++ vcmds ++ hcmds
              ++ DrawStringVertical env 10 (g1.m_bodyheight / 2) g1.m_yAxisTitle
              ++ scmds ++ legend g1 sz ++ [Cmd.restore])
  else Except.ok (g, [])

/-! ## Observations, reference values and example inputs -/

/-- End point of a drawn segment: the arguments of a `line_to`. -/
def Cmd.segmentEnd : Cmd → Option (ℚ × ℚ)
  | Cmd.line_to x y => some (x, y)
  | _ => none

/-- End points of the segments drawn by a sequence of calls, in order. -/
def segments (cmds : List Cmd) : List (ℚ × ℚ) :=
  cmds.filterMap Cmd.segmentEnd

/-- Number of segments drawn by a sequence of calls. -/
def segmentCount (cmds : List Cmd) : Nat :=
  (segments cmds).length

/-- Straight lines painted by a sequence of calls: each `move_to` directly followed by a
`line_to` and a `stroke`, as the pair of its two end points, in order. -/
def strokedLines : List Cmd → List ((ℚ × ℚ) × (ℚ × ℚ))
  | [] => []
  | c :: rest =>
    match c, rest with
    | Cmd.move_to x0 y0, Cmd.line_to x1 y1 :: Cmd.stroke :: _ =>
      ((x0, y0), (x1, y1)) :: strokedLines rest
    | _, _ => strokedLines rest

/-- Text of a laid-out string, the argument of a `show_layout`. -/
def Cmd.shownText : Cmd → Option String
  | Cmd.show_layout text => some text
  | _ => none

/-- Texts shown by a sequence of calls, in order. -/
def shownTexts (cmds : List Cmd) : List String :=
  cmds.filterMap Cmd.shownText

/-- The straight line painted for the vertical grid line of the counter value `dt`: from the
bottom to the top edge of the plot area at `x = m_right - dt * m_timeScale`. -/
def verticalLineOf (g : Graph) (dt : Int) : (ℚ × ℚ) × (ℚ × ℚ) :=
  (((toInt (g.m_right - (dt : ℚ) * g.m_timeScale) : ℚ) + 1 / 2, g.m_bottom + 1 / 2),
   (g.m_right - (dt : ℚ) * g.m_timeScale + 1 / 2, g.m_top))

/-- Frame geometry of the constructor's state in a 640 x 480 viewport with one grid line
every 2 000 000 000 seconds at a ten-millionth of a pixel per second. -/
def overflowChart : Graph :=
  calcDimensions
    { Graph.init with
      m_width := 640, m_height := 480, m_timeTick := 2000000000, m_timeScale := 1 / 10000000 }

/-- The frame geometry of a 640 x 480 viewport on the constructor's state. -/
def frame640 : Graph :=
  calcDimensions { Graph.init with m_width := 640, m_height := 480 }

/-- A data source without any sub-series. -/
def emptySource : Graphable :=
  { m_name := "cpu", m_color := { red := 1, green := 0, blue := 0 }, m_visible := true,
    m_series := [] }

/-- Chart used to exercise the smoothing: plot area 100 pixels high starting at `y = 0`, so
that raw positions are `100 - value`; right edge at `x = 170`, current time 2. -/
def smoothingChart : Graph :=
  calcDimensions
    { Graph.init with m_tmargin := 0, m_bmargin := 0, m_width := 190, m_height := 100, m_now := 2 }

/-- Three samples whose raw positions on `smoothingChart` are 0, 10, 20. -/
def series3 : Series :=
  [{ time := 0, value := 100 }, { time := 1, value := 90 }, { time := 2, value := 80 }]

/-- Colour used in the examples. -/
def red : Color := { red := 1, green := 0, blue := 0 }

/-- Number of vertical grid lines named by the specification:
`ceil((m_right - m_left) / (timeTick * m_timeScale))`, and none when that is not positive. -/
def verticalGridCount (g : Graph) (tick : Int) : Nat :=
  ⌈(g.m_right - g.m_left) / ((tick : ℚ) * g.m_timeScale)⌉.toNat

/-- Counter values named by the specification for the vertical grid: `k * timeTick` for
`k = 0, 1, ...` below the number of lines, in increasing `k`. -/
def verticalGridTimes (g : Graph) (tick : Int) : List Int :=
  (List.range (verticalGridCount g tick)).map (fun k : Nat => (k : Int) * tick)

/-- A realised 640 x 480 viewport at clock value 1000 in which every label measures
63 x 12 pixels. -/
def env640 : Env :=
  { window := true, width := 640, height := 480, now := 1000,
    measure := fun _ => (63, 12), logicalWidth := fun _ => 0,
    fmtFloat := fun _ _ => "" }

/-- The four sticky margins `(left, right, top, bottom)` of a chart state. -/
def Graph.margins (g : Graph) : ℚ × ℚ × ℚ × ℚ :=
  (g.m_lmargin, g.m_rmargin, g.m_tmargin, g.m_bmargin)

/-- The margins left by a frame, when the frame completes. -/
def marginsAfter (r : Except Fault (Graph × List Cmd)) : Option (ℚ × ℚ × ℚ × ℚ) :=
  match r with
  | Except.ok (g, _) => some g.margins
  | Except.error _ => none

/-- The fault that ended a frame or a loop, if any. -/
def faultOf {α : Type} (r : Except Fault α) : Option Fault :=
  match r with
  | Except.ok _ => none
  | Except.error e => some e

/-- A data source on which `GetSeries("avg")` has been called once and nothing appended. -/
def sourceWithEmptySeries : Graphable :=
  (emptySource.GetSeries [] "avg").2.1

/-- The heap after that call: one empty series. -/
def heapWithEmptySeries : Heap :=
  (emptySource.GetSeries [] "avg").2.2

/-- The constructor's state plotting the sub-series `"avg"` of that source. -/
def chartWithEmptySeries : Graph :=
  { Graph.init with m_series := [sourceWithEmptySeries], m_seriesName := "avg" }

/-- Frame geometry of the constructor's state in a 640 x 480 viewport, with the lower
redline moved above the top of the scale. -/
def redlineChart : Graph :=
  calcDimensions { Graph.init with m_width := 640, m_height := 480, m_minRedline := 150 }

/-- A realised 50 x 50 viewport, smaller than the default margins. -/
def env50 : Env :=
  { window := true, width := 50, height := 50, now := 1000,
    measure := fun _ => (30, 12), logicalWidth := fun _ => 0,
    fmtFloat := fun _ _ => "" }

/-- Width and height of the plot area left by a frame together with the number of calls the
frame issued, when the frame completes. -/
def boundsAfter (r : Except Fault (Graph × List Cmd)) : Option (ℚ × ℚ × Nat) :=
  match r with
  | Except.ok (g, cmds) => some (g.m_bodywidth, g.m_bodyheight, cmds.length)
  | Except.error _ => none

/-! # Verified properties -/

/-! ## Coordinate mapping: proofs -/

/-- The geometry block of a frame leaves `m_bottom = m_top + m_bodyheight`. -/
theorem calcDimensions_bottom (g : Graph) :
    (calcDimensions g).m_bottom = (calcDimensions g).m_top + (calcDimensions g).m_bodyheight := by
  simp [calcDimensions]

/-- C1: over exact arithmetic, in every chart state with `m_minScale < m_maxScale`,
`0 ≤ m_bodyheight` and `m_bottom = m_top + m_bodyheight` (the relation `on_draw`
establishes), `valueToPosition` sends `m_minScale` to `m_bottom`, `m_maxScale` to `m_top`,
and is non-increasing on `[m_minScale, m_maxScale]`. -/
theorem valueToPosition_endpoints_antitone (g : Graph)
    (hscale : g.m_minScale < g.m_maxScale) (hbody : 0 ≤ g.m_bodyheight)
    (hgeo : g.m_bottom = g.m_top + g.m_bodyheight) :
    valueToPosition g g.m_minScale = g.m_bottom ∧
    valueToPosition g g.m_maxScale = g.m_top ∧
    ∀ v1 v2 : ℚ, g.m_minScale ≤ v1 → v1 ≤ v2 → v2 ≤ g.m_maxScale →
      valueToPosition g v1 ≥ valueToPosition g v2 := by
  have hrange : 0 < g.m_maxScale - g.m_minScale := sub_pos.mpr hscale
  have hne : g.m_maxScale - g.m_minScale ≠ 0 := ne_of_gt hrange
  refine ⟨?_, ?_, ?_⟩
  · simp [valueToPosition, hgeo]
  · simp only [valueToPosition]
    rw [mul_div_cancel₀ _ hne]
    ring
  · intro v1 v2 _ h12 _
    simp only [valueToPosition, ge_iff_le]
    have hs : 0 ≤ g.m_bodyheight / (g.m_maxScale - g.m_minScale) :=
      div_nonneg hbody (le_of_lt hrange)
    have : (v1 - g.m_minScale) * (g.m_bodyheight / (g.m_maxScale - g.m_minScale))
        ≤ (v2 - g.m_minScale) * (g.m_bodyheight / (g.m_maxScale - g.m_minScale)) :=
      mul_le_mul_of_nonneg_right (by linarith) hs
    linarith

/-- Instance of C1 on the 640 x 480 frame of the constructor state. -/
theorem valueToPosition_endpoints_antitone_witness :
    frame640.m_minScale < frame640.m_maxScale ∧ 0 ≤ frame640.m_bodyheight ∧
    frame640.m_bottom = frame640.m_top + frame640.m_bodyheight ∧
    valueToPosition frame640 frame640.m_minScale = frame640.m_bottom ∧
    valueToPosition frame640 frame640.m_maxScale = frame640.m_top ∧
    ∀ v1 v2 : ℚ, frame640.m_minScale ≤ v1 → v1 ≤ v2 → v2 ≤ frame640.m_maxScale →
      valueToPosition frame640 v1 ≥ valueToPosition frame640 v2 :=
  ⟨by norm_num [frame640, calcDimensions, Graph.init],
   by norm_num [frame640, calcDimensions, Graph.init],
   calcDimensions_bottom _,
   valueToPosition_endpoints_antitone frame640
     (by norm_num [frame640, calcDimensions, Graph.init])
     (by norm_num [frame640, calcDimensions, Graph.init])
     (calcDimensions_bottom _)⟩

/-! ## `GetSeries`: proofs -/

/-- Appending an entry for `name` does not change what `find` answers for another key. -/
theorem SeriesMap.find_append_single (m : SeriesMap) (name k : String) (v : Ptr)
    (hk : k ≠ name) : SeriesMap.find (m ++ [(name, v)]) k = SeriesMap.find m k := by
  have hb : (k == name) = false := by simpa using hk
  simp [SeriesMap.find, List.lookup_append, List.lookup_cons, hb]

/-- After appending an entry for an absent `name`, `find` answers that entry. -/
theorem SeriesMap.find_append_self (m : SeriesMap) (name : String) (v : Ptr)
    (hm : SeriesMap.find m name = none) :
    SeriesMap.find (m ++ [(name, v)]) name = some v := by
  simp only [SeriesMap.find] at hm
  simp [SeriesMap.find, List.lookup_append, List.lookup_cons, hm]

/-- Result of `GetSeries` on an absent name. -/
theorem GetSeries_absent (g : Graphable) (h : Heap) (name : String)
    (hm : g.m_series.find name = none) :
    g.GetSeries h name =
      (Ptr.addr h.length,
       { g with m_series := g.m_series ++ [(name, Ptr.addr h.length)] },
       h ++ [[]]) := by
  have hfind := SeriesMap.find_append_self g.m_series name (Ptr.addr h.length) hm
  simp [Graphable.GetSeries, SeriesMap.assign, SeriesMap.index, Heap.newSeries, hm, hfind]

/-- Result of `GetSeries` on a present name. -/
theorem GetSeries_present (g : Graphable) (h : Heap) (name : String) (p : Ptr)
    (hm : g.m_series.find name = some p) :
    g.GetSeries h name = (p, g, h) := by
  simp [Graphable.GetSeries, SeriesMap.index, hm]

/-- C2: `GetSeries` is get-or-create. When `name` is absent the call appends the single
entry `name ↦ p`, where `p` is a pointer that designated no object before and designates an
empty series afterwards; every other key, every existing series and every other member is
left as it was. When `name` is present the stored pointer is returned and neither the object
nor the heap changes. A second call returns the same pointer and changes nothing. -/
theorem GetSeries_get_or_create (g : Graphable) (h : Heap) (name : String) :
    (g.m_series.find name = none →
      ∃ p : Ptr,
        g.GetSeries h name = (p, { g with m_series := g.m_series ++ [(name, p)] }, h ++ [[]]) ∧
        h.deref p = none ∧
        Heap.deref (h ++ [[]]) p = some [] ∧
        SeriesMap.find (g.m_series ++ [(name, p)]) name = some p ∧
        (∀ k : String, k ≠ name →
          SeriesMap.find (g.m_series ++ [(name, p)]) k = g.m_series.find k) ∧
        (∀ (q : Ptr) (s : Series), h.deref q = some s → Heap.deref (h ++ [[]]) q = some s)) ∧
    (∀ p : Ptr, g.m_series.find name = some p → g.GetSeries h name = (p, g, h)) ∧
    (g.GetSeries h name).2.1.GetSeries (g.GetSeries h name).2.2 name = g.GetSeries h name := by
  refine ⟨?_, ?_, ?_⟩
  · intro hm
    refine ⟨Ptr.addr h.length, GetSeries_absent g h name hm, ?_, ?_, ?_, ?_, ?_⟩
    · simp [Heap.deref]
    · simp [Heap.deref]
    · exact SeriesMap.find_append_self _ _ _ hm
    · intro k hk
      exact SeriesMap.find_append_single _ _ _ _ hk
    · intro q s hq
      cases q with
      | null => simp [Heap.deref] at hq
      | addr n =>
        simp only [Heap.deref] at hq ⊢
        have hn : n < h.length := by
          by_contra hge
          rw [List.getElem?_eq_none (by omega)] at hq
          cases hq
        rw [List.getElem?_append_left hn]
        exact hq
  · intro p hm
    exact GetSeries_present g h name p hm
  · cases hm : g.m_series.find name with
    | none =>
      rw [GetSeries_absent g h name hm]
      exact GetSeries_present _ _ _ _ (SeriesMap.find_append_self _ _ _ hm)
    | some p =>
      rw [GetSeries_present g h name p hm]
      exact GetSeries_present g h name p hm

/-- Instance of C2: first and second request of `"avg"` on a source without sub-series. -/
theorem GetSeries_get_or_create_witness :
    emptySource.m_series.find "avg" = none ∧
    emptySource.GetSeries [] "avg" =
      (Ptr.addr 0, { emptySource with m_series := [("avg", Ptr.addr 0)] }, [[]]) ∧
    (emptySource.GetSeries [] "avg").2.1.GetSeries (emptySource.GetSeries [] "avg").2.2 "avg"
      = emptySource.GetSeries [] "avg" := by
  have hm : emptySource.m_series.find "avg" = none := by decide
  obtain ⟨p, hp, _, hnew, _⟩ := (GetSeries_get_or_create emptySource [] "avg").1 hm
  have hp0 : p = Ptr.addr 0 := by
    cases p with
    | null => simp [Heap.deref] at hnew
    | addr n =>
      cases n with
      | zero => rfl
      | succ k => simp [Heap.deref] at hnew
  subst hp0
  exact ⟨hm, hp, (GetSeries_get_or_create emptySource [] "avg").2.2⟩

/-! ## `DrawSeries`: proofs -/

/-- Segments of a concatenation of calls. -/
theorem segments_append (a b : List Cmd) : segments (a ++ b) = segments a ++ segments b := by
  simp [segments, List.filterMap_append]

/-- On a non-empty series `DrawSeries` completes, and its segments are those of its loop. -/
theorem DrawSeries_cons (g : Graph) (first : Sample) (rest : List Sample) (color : Color) :
    ∃ cmds, DrawSeries g (first :: rest) color = Except.ok cmds ∧
      segments cmds =
        segments (DrawSeries.loop g rest (valueToPosition g first.value)
          (valueToPosition g first.value)) := by
  refine ⟨_, rfl, ?_⟩
  simp [segments_append]
  simp [segments, Cmd.segmentEnd]

/-- The loop draws one segment per sample whose `x` is not negative. -/
theorem loop_segmentCount (g : Graph) (rest : List Sample) :
    ∀ y1 y2 : ℚ, segmentCount (DrawSeries.loop g rest y1 y2) =
      (rest.filter (fun s => decide (0 ≤ timeToPosition g s.time))).length := by
  induction rest with
  | nil => intro y1 y2; simp [DrawSeries.loop, segmentCount, segments]
  | cons s rest ih =>
    intro y1 y2
    by_cases hx : timeToPosition g s.time < 0
    · have h := ih y1 y2
      simp only [segmentCount, segments] at h
      simp [DrawSeries.loop, segmentCount, segments, hx, Cmd.segmentEnd, h, List.filter_cons]
    · have h := ih (valueToPosition g s.value) y1
      simp only [segmentCount, segments] at h
      have hx2 : 0 ≤ timeToPosition g s.time := not_lt.mp hx
      simp [DrawSeries.loop, segmentCount, segments, hx, hx2, Cmd.segmentEnd, h,
        List.filter_cons]

/-- Filtering on `0 ≤ x` keeps a list all of whose samples have `0 ≤ x`. -/
theorem filter_eq_self_of_nonneg (g : Graph) (l : List Sample)
    (hx : ∀ s ∈ l, 0 ≤ timeToPosition g s.time) :
    l.filter (fun s => decide (0 ≤ timeToPosition g s.time)) = l := by
  rw [List.filter_eq_self]
  intro s hs
  simpa using hx s hs

/-- C4: for a series with `N ≥ 1` samples `DrawSeries` completes and issues exactly one
`line_to` for each sample after the first whose `x = timeToPosition(time)` is `≥ 0`, and
none for the first sample or for a sample with `x < 0`; so no segment when `N = 1`, and
`N - 1` segments when `N ≥ 2` and no sample has `x < 0`. -/
theorem DrawSeries_segment_count (g : Graph) (series : Series) (color : Color)
    (hN : 1 ≤ series.length) :
    ∃ cmds, DrawSeries g series color = Except.ok cmds ∧
      segmentCount cmds =
        ((series.drop 1).filter (fun s => decide (0 ≤ timeToPosition g s.time))).length ∧
      (series.length = 1 → segmentCount cmds = 0) ∧
      (2 ≤ series.length → (∀ s ∈ series, 0 ≤ timeToPosition g s.time) →
        segmentCount cmds = series.length - 1) := by
  cases series with
  | nil => simp at hN
  | cons first rest =>
    obtain ⟨cmds, hok, hseg⟩ := DrawSeries_cons g first rest color
    have hcount : segmentCount cmds =
        (rest.filter (fun s => decide (0 ≤ timeToPosition g s.time))).length := by
      have := loop_segmentCount g rest (valueToPosition g first.value)
        (valueToPosition g first.value)
      simpa [segmentCount, hseg] using this
    refine ⟨cmds, hok, by simpa using hcount, ?_, ?_⟩
    · intro h1
      have : rest = [] := by
        cases rest with
        | nil => rfl
        | cons a t => simp at h1
      simp [hcount, this]
    · intro _ hx
      rw [hcount, filter_eq_self_of_nonneg g rest (fun s hs => hx s (List.mem_cons_of_mem _ hs))]
      simp

/-- End point of the `j`-th segment of the loop when no sample is skipped, in terms of the two
remembered positions and the raw positions of the samples before it. -/
theorem loop_segments_getElem (g : Graph) (rest : List Sample) :
    ∀ (y1 y2 : ℚ), (∀ s ∈ rest, ¬ timeToPosition g s.time < 0) →
      ∀ (j : Nat) (hj : j < rest.length),
        (segments (DrawSeries.loop g rest y1 y2))[j]? =
          some (timeToPosition g (rest.get ⟨j, hj⟩).time,
            (valueToPosition g (rest.get ⟨j, hj⟩).value
              + (y1 :: rest.map (fun s => valueToPosition g s.value)).getD j 0
              + (y2 :: y1 :: rest.map (fun s => valueToPosition g s.value)).getD j 0) / 3) := by
  induction rest with
  | nil => intro y1 y2 _ j hj; simp at hj
  | cons s rest ih =>
    intro y1 y2 hx j hj
    have hs : ¬ timeToPosition g s.time < 0 := hx s (List.mem_cons_self _ _)
    have hrest : ∀ t ∈ rest, ¬ timeToPosition g t.time < 0 :=
      fun t ht => hx t (List.mem_cons_of_mem _ ht)
    have hunfold : segments (DrawSeries.loop g (s :: rest) y1 y2) =
        (timeToPosition g s.time, (valueToPosition g s.value + y1 + y2) / 3)
          :: segments (DrawSeries.loop g rest (valueToPosition g s.value) y1) := by
      simp [DrawSeries.loop, hs, segments, Cmd.segmentEnd]
    rw [hunfold]
    cases j with
    | zero => simp
    | succ j =>
      have hj2 : j < rest.length := by simpa using hj
      have := ih (valueToPosition g s.value) y1 hrest j hj2
      simpa using this

/-- Without skipped samples the loop draws one segment per sample. -/
theorem loop_segments_length (g : Graph) (rest : List Sample) (y1 y2 : ℚ)
    (hx : ∀ s ∈ rest, ¬ timeToPosition g s.time < 0) :
    (segments (DrawSeries.loop g rest y1 y2)).length = rest.length := by
  have h := loop_segmentCount g rest y1 y2
  rw [filter_eq_self_of_nonneg g rest (fun s hs => not_lt.mp (hx s hs))] at h
  exact h

/-- C7: for a series with `N ≥ 2` samples none of which has `x < 0`, `DrawSeries` completes,
draws `N - 1` segments, and the `k`-th of them (`1 ≤ k ≤ N - 1`) ends at
`(x_k, (y_k + y_(k-1) + y_max(k-2,0)) / 3)` with `x_k = timeToPosition(time_k)` and
`y_k = valueToPosition(value_k)`: a trailing average of raw positions only. -/
theorem DrawSeries_trailing_average (g : Graph) (series : Series) (color : Color)
    (hN : 2 ≤ series.length) (hx : ∀ s ∈ series, ¬ timeToPosition g s.time < 0) :
    ∃ cmds, DrawSeries g series color = Except.ok cmds ∧
      (segments cmds).length = series.length - 1 ∧
      ∀ (k : Nat) (_ : 1 ≤ k) (hk : k < series.length),
        (segments cmds)[k - 1]? =
          some (timeToPosition g (series.get ⟨k, hk⟩).time,
            (valueToPosition g (series.get ⟨k, hk⟩).value
              + valueToPosition g (series.get ⟨k - 1, by omega⟩).value
              + valueToPosition g (series.get ⟨k - 2, by omega⟩).value) / 3) := by
  cases series with
  | nil => simp at hN
  | cons first rest =>
    obtain ⟨cmds, hok, hseg⟩ := DrawSeries_cons g first rest color
    have hrest : ∀ t ∈ rest, ¬ timeToPosition g t.time < 0 :=
      fun t ht => hx t (List.mem_cons_of_mem _ ht)
    refine ⟨cmds, hok, ?_, ?_⟩
    · rw [hseg, loop_segments_length g rest _ _ hrest]
      simp
    · intro k h1 hk
      obtain ⟨j, rfl⟩ : ∃ j, k = j + 1 := ⟨k - 1, by omega⟩
      have hj : j < rest.length := by simpa using hk
      rw [hseg]
      have := loop_segments_getElem g rest (valueToPosition g first.value)
        (valueToPosition g first.value) hrest j hj
      simp only [Nat.add_sub_cancel]
      rw [this]
      cases j with
      | zero => simp
      | succ i =>
        have hi : i < rest.length := by omega
        simp [List.getD_eq_getElem?_getD, List.getElem?_eq_getElem, hi]
        cases i with
        | zero => simp
        | succ i2 =>
          have hi2 : i2 < rest.length := by omega
          simp [List.getElem?_eq_getElem, hi2]

/-- Every sample of `series3` lies at a non-negative `x` on `smoothingChart`. -/
theorem series3_x (s : Sample) (hs : s ∈ series3) : 0 ≤ timeToPosition smoothingChart s.time := by
  simp only [series3, List.mem_cons, List.mem_singleton, List.not_mem_nil, or_false] at hs
  rcases hs with rfl | rfl | rfl <;>
    norm_num [timeToPosition, smoothingChart, calcDimensions, Graph.init]

/-- Instance of C4: three samples, two segments. -/
theorem DrawSeries_segment_count_witness :
    1 ≤ series3.length ∧
    ∃ cmds, DrawSeries smoothingChart series3 red = Except.ok cmds ∧ segmentCount cmds = 2 := by
  obtain ⟨cmds, hok, _, _, h⟩ := DrawSeries_segment_count smoothingChart series3 red (by decide)
  exact ⟨by decide, cmds, hok, h (by decide) series3_x⟩

/-- Instance of C7: raw positions 0, 10, 20; the segment to the third sample ends at `y = (20 + 10
+ 0) / 3 = 10`. -/
theorem DrawSeries_trailing_average_witness :
    2 ≤ series3.length ∧
    (∀ s ∈ series3, ¬ timeToPosition smoothingChart s.time < 0) ∧
    valueToPosition smoothingChart 100 = 0 ∧
    valueToPosition smoothingChart 90 = 10 ∧
    valueToPosition smoothingChart 80 = 20 ∧
    ∃ cmds, DrawSeries smoothingChart series3 red = Except.ok cmds ∧
      (segments cmds)[1]? = some (170, 10) := by
  have hx : ∀ s ∈ series3, ¬ timeToPosition smoothingChart s.time < 0 :=
    fun s hs => not_lt.mpr (series3_x s hs)
  obtain ⟨cmds, hok, _, h⟩ :=
    DrawSeries_trailing_average smoothingChart series3 red (by decide) hx
  refine ⟨by decide, hx, ?_, ?_, ?_, cmds, hok, ?_⟩
  · norm_num [valueToPosition, smoothingChart, calcDimensions, Graph.init]
  · norm_num [valueToPosition, smoothingChart, calcDimensions, Graph.init]
  · norm_num [valueToPosition, smoothingChart, calcDimensions, Graph.init]
  · have h2 := h 2 (by decide) (by decide)
    rw [h2]
    norm_num [series3, valueToPosition, timeToPosition, smoothingChart, calcDimensions,
      Graph.init]

/-! ## Grid loops: proofs -/

/-- The calls of one vertical grid line paint exactly one straight line, that of its counter
value. -/
theorem strokedLines_verticalGridLine (g : Graph) (dt : Int) (rest : List Cmd) :
    strokedLines (verticalGridLine g dt ++ rest) = verticalLineOf g dt :: strokedLines rest := by
  simp [verticalGridLine, DrawString, strokedLines, verticalLineOf, timeToPosition]

/-- The calls of one vertical grid line show exactly one text, the label of its counter
value. -/
theorem shownTexts_verticalGridLine (g : Graph) (dt : Int) (rest : List Cmd) :
    shownTexts (verticalGridLine g dt ++ rest) = timeLabel g dt :: shownTexts rest := by
  simp [verticalGridLine, DrawString, shownTexts, Cmd.shownText]

/-- Lines painted and texts shown by the grid-line calls of a list of counter values. -/
theorem verticalGridLines_observed (g : Graph) (dts : List Int) :
    strokedLines (dts.flatMap (verticalGridLine g)) = dts.map (verticalLineOf g) ∧
    shownTexts (dts.flatMap (verticalGridLine g)) = dts.map (timeLabel g) := by
  induction dts with
  | nil => simp [strokedLines, shownTexts]
  | cons dt dts ih =>
    simp only [List.flatMap_cons, List.map_cons, strokedLines_verticalGridLine,
      shownTexts_verticalGridLine, ih.1, ih.2, and_self]

/-- Truncation of an integer value is that integer. -/
theorem toInt_intCast (z : Int) : toInt (z : ℚ) = z := by
  simp [toInt, Rat.num_intCast, Rat.den_intCast, Int.tdiv_one]

/-- Position of the instant `dt` seconds before `m_now`. -/
theorem timeToPosition_now_sub (g : Graph) (dt : ℚ) :
    timeToPosition g (g.m_now - dt) = g.m_right - dt * g.m_timeScale := by
  simp only [timeToPosition]
  ring

/-- A vertical-grid loop started at the counter value `dt` that fails its exit test exactly
`n` times, and whose counter stays within `int` up to `dt + n * tick`, returns, having
issued the grid-line calls of `dt`, `dt + tick`, ..., in that order. -/
theorem verticalGrid_run (env : Env) (g : Graph) (tick : Int)
    (htick : g.m_timeTick = (tick : ℚ)) (hpos : 0 < tick) :
    ∀ (n : Nat) (dt : Int) (bm : ℚ) (fuel : Nat),
      (∀ j : Nat, j < n →
        ¬ timeToPosition g (g.m_now - ((dt + (j : Int) * tick : Int) : ℚ)) ≤ g.m_left) →
      timeToPosition g (g.m_now - ((dt + (n : Int) * tick : Int) : ℚ)) ≤ g.m_left →
      INT_MIN ≤ dt → dt + (n : Int) * tick ≤ INT_MAX →
      n < fuel →
      ∃ bm', verticalGrid env g fuel dt bm =
        Except.ok (bm', ((List.range n).map (fun j : Nat => dt + (j : Int) * tick)).flatMap
          (verticalGridLine g)) := by
  intro n
  induction n with
  | zero =>
    intro dt bm fuel _ hstop _ _ hfuel
    obtain ⟨f, rfl⟩ : ∃ f, fuel = f + 1 := ⟨fuel - 1, by omega⟩
    have hstop2 : timeToPosition g (g.m_now - (dt : ℚ)) ≤ g.m_left := by simpa using hstop
    exact ⟨bm, by simp [verticalGrid, hstop2]⟩
  | succ n ih =>
    intro dt bm fuel hrun hstop hlo hhi hfuel
    obtain ⟨f, rfl⟩ : ∃ f, fuel = f + 1 := ⟨fuel - 1, by omega⟩
    have h0 : ¬ timeToPosition g (g.m_now - (dt : ℚ)) ≤ g.m_left := by
      simpa using hrun 0 (Nat.succ_pos n)
    have hstep : toInt ((dt : ℚ) + g.m_timeTick) = dt + tick := by
      rw [htick, ← Int.cast_add, toInt_intCast]
    have hsucc : dt + ((n + 1 : Nat) : Int) * tick = (dt + tick) + (n : Int) * tick := by
      push_cast
      ring
    have hnt : 0 ≤ (n : Int) * tick := mul_nonneg (Int.ofNat_nonneg n) (le_of_lt hpos)
    have hhi2 : (dt + tick) + (n : Int) * tick ≤ INT_MAX := by
      rw [← hsucc]
      exact hhi
    have hfits : fitsInt (dt + tick) = true := by
      simp only [fitsInt, decide_eq_true_eq]
      constructor <;> omega
    have hrun2 : ∀ j : Nat, j < n →
        ¬ timeToPosition g (g.m_now - (((dt + tick) + (j : Int) * tick : Int) : ℚ))
          ≤ g.m_left := by
      intro j hj
      have := hrun (j + 1) (Nat.succ_lt_succ hj)
      have heq : dt + ((j + 1 : Nat) : Int) * tick = (dt + tick) + (j : Int) * tick := by
        push_cast
        ring
      rwa [heq] at this
    have hstop2 : timeToPosition g (g.m_now - (((dt + tick) + (n : Int) * tick : Int) : ℚ))
        ≤ g.m_left := by
      rwa [hsucc] at hstop
    obtain ⟨bm', hrec⟩ :=
      ih (dt + tick) (bumpBottomMargin env g dt bm) f hrun2 hstop2 (by omega) hhi2 (by omega)
    refine ⟨bm', ?_⟩
    have hcomp : ((fun j : Nat => dt + (j : Int) * tick) ∘ Nat.succ)
        = (fun j : Nat => (dt + tick) + (j : Int) * tick) := by
      funext j
      simp only [Function.comp, Nat.succ_eq_add_one]
      push_cast
      ring
    simp only [verticalGrid, h0, if_false, hstep, hfits, if_true, hrec, List.range_succ_eq_map,
      List.map_cons, List.map_map, List.flatMap_cons, Nat.cast_zero, zero_mul, add_zero, hcomp]

/-- The counter values `k * tick` lying right of `m_left` are those with `k` below the
count. -/
theorem verticalGridCount_spec (g : Graph) (tick : Int) (hpos : 0 < tick)
    (hscale : 0 < g.m_timeScale) (k : Nat) :
    k < verticalGridCount g tick ↔
      g.m_left < timeToPosition g (g.m_now - (((k : Int) * tick : Int) : ℚ)) := by
  have hts : 0 < (tick : ℚ) * g.m_timeScale := mul_pos (by exact_mod_cast hpos) hscale
  rw [verticalGridCount, Int.lt_toNat, Int.lt_ceil, lt_div_iff₀ hts, timeToPosition_now_sub]
  push_cast
  constructor <;> intro h <;> nlinarith

/-- C10 (counterexample): with `timeTick = 2 000 000 000 > 0` and `timeScale = 1e-7 > 0`
between `x = 70` and `x = 620`, the lines of `dt = 0` (`x = 620`) and `dt = 2 000 000 000`
(`x = 420`) are drawn and the increment to `4 000 000 000` leaves the range of `int`: the
loop, and the frame, do not complete. -/
theorem verticalGrid_counter_overflows :
    0 < overflowChart.m_timeTick ∧ 0 < overflowChart.m_timeScale ∧
    overflowChart.m_left < timeToPosition overflowChart (overflowChart.m_now - 2000000000) ∧
    fitsInt (2000000000 + 2000000000) = false ∧
    faultOf (verticalGrid env640 overflowChart 100 0 overflowChart.m_bmargin)
      = some Fault.intOverflow ∧
    faultOf (on_draw 100 env640 []
        { Graph.init with m_timeTick := 2000000000, m_timeScale := 1 / 10000000 })
      = some Fault.intOverflow := by
  decide!

/-- Whatever the fuel, the vertical-grid loop of `overflowChart` answers no result: the
fault is the overflow of the counter as soon as the fuel allows two passes. -/
theorem verticalGrid_overflowChart_no_result (fuel : Nat) (bm : ℚ) :
    faultOf (verticalGrid env640 overflowChart fuel 0 bm)
      = some (if fuel < 2 then Fault.outOfFuel else Fault.intOverflow) := by
  have hp0 : ¬ timeToPosition overflowChart overflowChart.m_now ≤ overflowChart.m_left := by
    decide!
  have hn0 : toInt overflowChart.m_timeTick = 2000000000 := by decide!
  have hp1 : ¬ timeToPosition overflowChart (overflowChart.m_now - 2000000000)
      ≤ overflowChart.m_left := by decide!
  have hn1 : toInt (2000000000 + overflowChart.m_timeTick) = 4000000000 := by decide!
  have hf0 : fitsInt 2000000000 = true := by decide
  have hf1 : fitsInt 4000000000 = false := by decide
  match fuel with
  | 0 => simp [verticalGrid, faultOf]
  | 1 => simp [verticalGrid, faultOf, hp0, hn0, hf0]
  | f + 2 => simp [verticalGrid, faultOf, hp0, hn0, hf0, hp1, hn1, hf1]

/-- C10 (amended): over exact arithmetic, for an integer `timeTick > 0` and `timeScale > 0`
such that the counter stays within `int` (`count * timeTick ≤ INT_MAX`, where `count` is
`ceil((right - left) / (timeTick * timeScale))`, or zero when that is not positive), the
vertical-grid loop terminates (every sufficiently large fuel gives a result); it draws one
grid line for each `dt = k * timeTick`, `k = 0, 1, 2, ...`, with
`timeToPosition(now - dt) = right - dt * timeScale > left`, in order of increasing `dt`, and
no other: its calls are the grid-line calls of these `dt`, the straight lines it paints run
from the bottom to the top edge at `x = right - dt * timeScale`, and the texts it shows are
their labels. Every drawn line has `left < x ≤ right`, the line of `dt = 0` is at
`x = right`, and the number of lines is `ceil((right - left) / (timeTick * timeScale))` when
`right > left` and zero when `right ≤ left`. -/
theorem verticalGrid_lines (env : Env) (g : Graph) (tick : Int)
    (htick : g.m_timeTick = (tick : ℚ)) (hpos : 0 < tick) (hscale : 0 < g.m_timeScale)
    (hfit : (verticalGridCount g tick : Int) * tick ≤ INT_MAX) :
    (∃ fuel0 : Nat, ∀ fuel : Nat, fuel0 ≤ fuel → ∀ bm : ℚ, ∃ (bm' : ℚ) (cmds : List Cmd),
      verticalGrid env g fuel 0 bm = Except.ok (bm', cmds) ∧
      cmds = (verticalGridTimes g tick).flatMap (verticalGridLine g) ∧
      strokedLines cmds = (verticalGridTimes g tick).map (verticalLineOf g) ∧
      shownTexts cmds = (verticalGridTimes g tick).map (timeLabel g)) ∧
    (∀ k : Nat, k < verticalGridCount g tick ↔
      g.m_left < timeToPosition g (g.m_now - (((k : Int) * tick : Int) : ℚ))) ∧
    (∀ k : Nat, timeToPosition g (g.m_now - (((k : Int) * tick : Int) : ℚ))
      = g.m_right - ((k : ℚ) * (tick : ℚ)) * g.m_timeScale) ∧
    (∀ k : Nat, k < verticalGridCount g tick →
      g.m_left < timeToPosition g (g.m_now - (((k : Int) * tick : Int) : ℚ)) ∧
      timeToPosition g (g.m_now - (((k : Int) * tick : Int) : ℚ)) ≤ g.m_right) ∧
    timeToPosition g (g.m_now - (((0 : Nat) : Int) * tick : Int)) = g.m_right ∧
    (g.m_left < g.m_right →
      (verticalGridCount g tick : Int)
        = ⌈(g.m_right - g.m_left) / ((tick : ℚ) * g.m_timeScale)⌉) ∧
    (g.m_right ≤ g.m_left → verticalGridCount g tick = 0) := by
  have htq : (0 : ℚ) < (tick : ℚ) := by exact_mod_cast hpos
  have hts : 0 < (tick : ℚ) * g.m_timeScale := mul_pos htq hscale
  have hkey := verticalGridCount_spec g tick hpos hscale
  refine ⟨⟨verticalGridCount g tick + 1, ?_⟩, hkey, ?_, ?_, ?_, ?_, ?_⟩
  · intro fuel hfuel bm
    obtain ⟨bm', h⟩ := verticalGrid_run env g tick htick hpos (verticalGridCount g tick) 0 bm
      fuel
      (fun j hj => by
        have := (hkey j).mp hj
        simpa using this)
      (by
        have := (hkey (verticalGridCount g tick)).not.mp (lt_irrefl _)
        simpa using this)
      (by decide)
      (by simpa using hfit)
      (by omega)
    have hvals : (List.range (verticalGridCount g tick)).map
        (fun j : Nat => (0 : Int) + (j : Int) * tick) = verticalGridTimes g tick := by
      simp [verticalGridTimes]
    rw [hvals] at h
    exact ⟨bm', _, h, rfl, (verticalGridLines_observed g _).1,
      (verticalGridLines_observed g _).2⟩
  · intro k
    rw [timeToPosition_now_sub]
    push_cast
    ring
  · intro k hk
    refine ⟨(hkey k).mp hk, ?_⟩
    rw [timeToPosition_now_sub]
    push_cast
    have : 0 ≤ (k : ℚ) * (tick : ℚ) * g.m_timeScale :=
      mul_nonneg (mul_nonneg (Nat.cast_nonneg k) (le_of_lt htq)) (le_of_lt hscale)
    linarith
  · simp [timeToPosition]
  · intro hlr
    have hc : 0 ≤ ⌈(g.m_right - g.m_left) / ((tick : ℚ) * g.m_timeScale)⌉ :=
      Int.ceil_nonneg (div_nonneg (by linarith) (le_of_lt hts))
    simp [verticalGridCount, Int.toNat_of_nonneg hc]
  · intro hrl
    have hc : ⌈(g.m_right - g.m_left) / ((tick : ℚ) * g.m_timeScale)⌉ ≤ 0 := by
      rw [Int.ceil_le]
      simpa using div_nonpos_of_nonpos_of_nonneg (by linarith) (le_of_lt hts)
    simp [verticalGridCount, Int.toNat_eq_zero.mpr hc]

/-- The 640 x 480 frame of the constructor state has the six vertical grid lines of
`dt = 0, 10, ..., 50`. -/
theorem verticalGridTimes_frame640 : verticalGridTimes frame640 10 = [0, 10, 20, 30, 40, 50] := by
  decide!

/-- Instance of C10 (amended): tick 10 s at 10 pixels per second between `x = 70` and
`x = 620` gives the lines of `dt = 0, 10, ..., 50`, painted from `y = 460.5` to `y = 10` at
`x = 620.5, 520.5, ..., 120.5`. -/
theorem verticalGrid_lines_witness :
    frame640.m_timeTick = ((10 : Int) : ℚ) ∧ (0 : Int) < 10 ∧ 0 < frame640.m_timeScale ∧
    (verticalGridCount frame640 10 : Int) * 10 ≤ INT_MAX ∧
    ∃ fuel0 : Nat, ∀ fuel : Nat, fuel0 ≤ fuel → ∀ bm : ℚ, ∃ (bm' : ℚ) (cmds : List Cmd),
      verticalGrid env640 frame640 fuel 0 bm = Except.ok (bm', cmds) ∧
      cmds = ([0, 10, 20, 30, 40, 50] : List Int).flatMap (verticalGridLine frame640) ∧
      strokedLines cmds =
        [((1241 / 2, 921 / 2), (1241 / 2, 10)), ((1041 / 2, 921 / 2), (1041 / 2, 10)),
         ((841 / 2, 921 / 2), (841 / 2, 10)), ((641 / 2, 921 / 2), (641 / 2, 10)),
         ((441 / 2, 921 / 2), (441 / 2, 10)), ((241 / 2, 921 / 2), (241 / 2, 10))] := by
  have h1 : frame640.m_timeTick = ((10 : Int) : ℚ) := by decide!
  have h3 : 0 < frame640.m_timeScale := by decide!
  have h4 : (verticalGridCount frame640 10 : Int) * 10 ≤ INT_MAX := by decide!
  have hlines : (verticalGridTimes frame640 10).map (verticalLineOf frame640) =
      [((1241 / 2, 921 / 2), (1241 / 2, 10)), ((1041 / 2, 921 / 2), (1041 / 2, 10)),
       ((841 / 2, 921 / 2), (841 / 2, 10)), ((641 / 2, 921 / 2), (641 / 2, 10)),
       ((441 / 2, 921 / 2), (441 / 2, 10)), ((241 / 2, 921 / 2), (241 / 2, 10))] := by
    decide!
  obtain ⟨fuel0, h⟩ := (verticalGrid_lines env640 frame640 10 h1 (by decide) h3 h4).1
  refine ⟨h1, by decide, h3, h4, fuel0, ?_⟩
  intro fuel hfuel bm
  obtain ⟨bm', cmds, hrun, hcmds, hstroked, _⟩ := h fuel hfuel bm
  rw [verticalGridTimes_frame640] at hcmds
  rw [hlines] at hstroked
  exact ⟨bm', cmds, hrun, hcmds, hstroked⟩

/-! ## Margins -/

/-- C3 (defect): one frame on the constructor's state, in a 640 x 480 viewport where every
label measures 63 pixels wide, lowers the left margin from 70 to 68: `xleft = 70 - 63 - 5 = 2`
is below 5, so `m_lmargin` is overwritten with `63 + 5`. -/
theorem on_draw_left_margin_shrinks :
    Graph.init.margins = (70, 20, 10, 20) ∧
    marginsAfter (on_draw 100 env640 [] Graph.init) = some (68, 20, 10, 20) := by
  decide!

/-- The bottom-margin update never lowers the margin. -/
theorem bumpBottomMargin_ge (env : Env) (g : Graph) (dt : Int) (bm : ℚ) :
    bm ≤ bumpBottomMargin env g dt bm := by
  simp only [bumpBottomMargin]
  split
  · linarith
  · exact le_refl _

/-- The vertical-grid loop never lowers the bottom margin. -/
theorem verticalGrid_bmargin_ge (env : Env) (g : Graph) :
    ∀ (fuel : Nat) (dt : Int) (bm bm' : ℚ) (cmds : List Cmd),
      verticalGrid env g fuel dt bm = Except.ok (bm', cmds) → bm ≤ bm' := by
  intro fuel
  induction fuel with
  | zero => intro dt bm bm' cmds h; simp [verticalGrid] at h
  | succ f ih =>
    intro dt bm bm' cmds h
    simp only [verticalGrid] at h
    split at h
    · simp only [Except.ok.injEq, Prod.mk.injEq] at h
      exact le_of_eq h.1
    · split at h
      · split at h
        · cases h
        · rename_i b rest hrec
          simp only [Except.ok.injEq, Prod.mk.injEq] at h
          have := ih _ _ _ _ hrec
          rw [← h.1]
          exact le_trans (bumpBottomMargin_ge env g dt bm) this
      · cases h

/-- The right and top margins are never written by a frame and the bottom margin never
decreases. -/
theorem on_draw_margins (fuel : Nat) (env : Env) (heap : Heap) (g g' : Graph)
    (cmds : List Cmd) (h : on_draw fuel env heap g = Except.ok (g', cmds)) :
    g'.m_rmargin = g.m_rmargin ∧ g'.m_tmargin = g.m_tmargin ∧ g.m_bmargin ≤ g'.m_bmargin := by
  simp only [on_draw] at h
  split at h
  · split at h
    · cases h
    · rename_i bm vcmds hv
      split at h
      · cases h
      · rename_i lm hcmds hh
        split at h
        · cases h
        · simp only [Except.ok.injEq, Prod.mk.injEq] at h
          have hb := verticalGrid_bmargin_ge env _ _ _ _ _ _ hv
          rw [← h.1]
          exact ⟨rfl, rfl, by simpa [calcDimensions] using hb⟩
  · simp only [Except.ok.injEq, Prod.mk.injEq] at h
    rw [← h.1]
    exact ⟨rfl, rfl, le_refl _⟩

/-! ## Empty series -/

/-- Whenever the first child is visible and its plotted sub-series exists and is empty, the
children loop reaches the read of a first sample that does not exist. -/
theorem drawChildren_empty_series (g : Graph) (heap : Heap) (pNode : Graphable)
    (rest : List Graphable) (p : Ptr) (hvis : pNode.m_visible = true)
    (hfind : pNode.m_series.find g.m_seriesName = some p) (hempty : heap.deref p = some []) :
    drawChildren g heap (pNode :: rest) = Except.error Fault.derefEnd := by
  simp [drawChildren, hvis, hfind, SeriesMap.index, hempty, DrawSeries]

/-- C5 (defect): a frame over a visible data source whose plotted sub-series exists and is
empty, exactly as `GetSeries` creates it, reaches `DrawSeries`, which reads the first sample
of a series that has none. -/
theorem on_draw_empty_series_reads_first :
    sourceWithEmptySeries.m_visible = true ∧
    (sourceWithEmptySeries.m_series.find "avg").map heapWithEmptySeries.deref
      = some (some []) ∧
    faultOf (on_draw 100 env640 heapWithEmptySeries chartWithEmptySeries)
      = some Fault.derefEnd := by
  decide!

/-! ## Redline bands -/

/-- C8 (counterexample): with scale `[0, 100]` and `m_minRedline = 150`, above `m_maxScale`,
the guard of the lower band holds and the redline section fills the band from
`valueToPosition(150) = -215` down to the bottom edge. -/
theorem min_redline_above_scale_is_drawn :
    redlineChart.m_minScale < redlineChart.m_maxScale ∧
    redlineChart.m_minRedline > redlineChart.m_maxScale ∧
    minRedlineDrawn redlineChart = true ∧
    redlines redlineChart =
      [Cmd.set_source_rgb 1 (4 / 5) (4 / 5),
       Cmd.move_to 70 (-215), Cmd.line_to 620 (-215), Cmd.line_to 620 460, Cmd.line_to 70 460,
       Cmd.fill] := by
  decide!

/-- C8 (amended): a redline disables its band exactly when it is off scale on its own side.
If `m_minRedline ≤ m_minScale` no lower band is drawn, if `m_maxRedline ≥ m_maxScale` no upper
band is drawn, and with both the redline section only selects its colour; whereas every
`m_minRedline > m_minScale` gets the lower band and every `m_maxRedline < m_maxScale` the
upper band, wherever the other end of the scale lies. -/
theorem redline_band_guards (g : Graph) :
    (g.m_minRedline ≤ g.m_minScale →
      minRedlineDrawn g = false ∧
      redlines g = Cmd.set_source_rgb 1 (4 / 5) (4 / 5)
        :: (if maxRedlineDrawn g then maxRedlineBand g else [])) ∧
    (g.m_maxScale ≤ g.m_maxRedline →
      maxRedlineDrawn g = false ∧
      redlines g = Cmd.set_source_rgb 1 (4 / 5) (4 / 5)
        :: (if minRedlineDrawn g then minRedlineBand g else [])) ∧
    (g.m_minRedline ≤ g.m_minScale → g.m_maxScale ≤ g.m_maxRedline →
      redlines g = [Cmd.set_source_rgb 1 (4 / 5) (4 / 5)]) ∧
    (g.m_minScale < g.m_minRedline →
      minRedlineDrawn g = true ∧
      redlines g = Cmd.set_source_rgb 1 (4 / 5) (4 / 5)
        :: (minRedlineBand g ++ (if maxRedlineDrawn g then maxRedlineBand g else []))) ∧
    (g.m_maxRedline < g.m_maxScale →
      maxRedlineDrawn g = true ∧
      redlines g = Cmd.set_source_rgb 1 (4 / 5) (4 / 5)
        :: ((if minRedlineDrawn g then minRedlineBand g else []) ++ maxRedlineBand g)) := by
  refine ⟨?_, ?_, ?_, ?_, ?_⟩
  · intro h
    have hd : minRedlineDrawn g = false := by simpa [minRedlineDrawn] using h
    exact ⟨hd, by simp [redlines, hd]⟩
  · intro h
    have hd : maxRedlineDrawn g = false := by simpa [maxRedlineDrawn] using h
    exact ⟨hd, by simp [redlines, hd]⟩
  · intro h1 h2
    have hd1 : minRedlineDrawn g = false := by simpa [minRedlineDrawn] using h1
    have hd2 : maxRedlineDrawn g = false := by simpa [maxRedlineDrawn] using h2
    simp [redlines, hd1, hd2]
  · intro h
    have hd : minRedlineDrawn g = true := by simpa [minRedlineDrawn] using h
    exact ⟨hd, by simp [redlines, hd]⟩
  · intro h
    have hd : maxRedlineDrawn g = true := by simpa [maxRedlineDrawn] using h
    exact ⟨hd, by simp [redlines, hd]⟩

/-- Instance of C8 (amended): the constructor defaults, redlines -1 and 101 on scale 0 to 100, draw
no band. -/
theorem redline_band_guards_witness :
    frame640.m_minRedline ≤ frame640.m_minScale ∧
    frame640.m_maxScale ≤ frame640.m_maxRedline ∧
    redlines frame640 = [Cmd.set_source_rgb 1 (4 / 5) (4 / 5)] := by
  have h1 : frame640.m_minRedline ≤ frame640.m_minScale := by
    norm_num [frame640, calcDimensions, Graph.init]
  have h2 : frame640.m_maxScale ≤ frame640.m_maxRedline := by
    norm_num [frame640, calcDimensions, Graph.init]
  exact ⟨h1, h2, (redline_band_guards frame640).2.2.1 h1 h2⟩

/-! ## Plot bounds -/

/-- C9 (counterexample): on the constructor's margins a realised 50 x 50 viewport gives
`m_bodywidth = 50 - 20 - 70 = -40`, and the frame still issues its 147 Cairo calls. -/
theorem on_draw_negative_body_width :
    (0 : Int) ≤ env50.width ∧ (0 : Int) ≤ env50.height ∧
    boundsAfter (on_draw 100 env50 [] Graph.init) = some (-40, 20, 147) := by
  decide!

/-- C9 (amended): the frame computes `m_bodywidth = width - m_rmargin - m_lmargin` and
`m_bodyheight = height - m_bmargin - m_tmargin`; they are non-negative exactly when the
viewport is at least as wide as the two horizontal margins together, respectively as high as
the two vertical ones. A frame issues no call exactly when the surface is unavailable; with a
surface, a completed frame carries these bounds and is drawn whatever their sign. -/
theorem plot_bounds (g : Graph) (env : Env) :
    (calcDimensions { g with m_width := env.width, m_height := env.height }).m_bodywidth
      = env.width - g.m_rmargin - g.m_lmargin ∧
    (calcDimensions { g with m_width := env.width, m_height := env.height }).m_bodyheight
      = env.height - g.m_bmargin - g.m_tmargin ∧
    (g.m_lmargin + g.m_rmargin ≤ env.width ↔
      0 ≤ (calcDimensions { g with m_width := env.width, m_height := env.height }).m_bodywidth) ∧
    (g.m_tmargin + g.m_bmargin ≤ env.height ↔
      0 ≤ (calcDimensions { g with m_width := env.width, m_height := env.height }).m_bodyheight) ∧
    (env.window = false → ∀ (fuel : Nat) (heap : Heap),
      on_draw fuel env heap g = Except.ok (g, [])) ∧
    (env.window = true → ∀ (fuel : Nat) (heap : Heap) (g' : Graph) (cmds : List Cmd),
      on_draw fuel env heap g = Except.ok (g', cmds) →
        g'.m_bodywidth = env.width - g.m_rmargin - g.m_lmargin ∧
        g'.m_bodyheight = env.height - g.m_bmargin - g.m_tmargin ∧
        cmds ≠ []) := by
  refine ⟨by simp [calcDimensions], by simp [calcDimensions], ?_, ?_, ?_, ?_⟩
  · simp only [calcDimensions]
    constructor <;> intro h <;> linarith
  · simp only [calcDimensions]
    constructor <;> intro h <;> linarith
  · intro hw fuel heap
    simp [on_draw, hw]
  · intro hw fuel heap g' cmds h
    simp only [on_draw, hw, if_true] at h
    split at h
    · cases h
    · split at h
      · cases h
      · split at h
        · cases h
        · simp only [Except.ok.injEq, Prod.mk.injEq] at h
          rw [← h.1, ← h.2]
          exact ⟨by simp [calcDimensions], by simp [calcDimensions], by simp⟩

/-- Instance of C9 (amended): a 640 x 480 viewport on the constructor margins has non-negative plot
bounds. -/
theorem plot_bounds_witness :
    Graph.init.m_lmargin + Graph.init.m_rmargin ≤ env640.width ∧
    Graph.init.m_tmargin + Graph.init.m_bmargin ≤ env640.height ∧
    0 ≤ (calcDimensions
      { Graph.init with m_width := env640.width, m_height := env640.height }).m_bodywidth ∧
    0 ≤ (calcDimensions
      { Graph.init with m_width := env640.width, m_height := env640.height }).m_bodyheight := by
  have h1 : Graph.init.m_lmargin + Graph.init.m_rmargin ≤ env640.width := by
    norm_num [Graph.init, env640]
  have h2 : Graph.init.m_tmargin + Graph.init.m_bmargin ≤ env640.height := by
    norm_num [Graph.init, env640]
  exact ⟨h1, h2, (plot_bounds Graph.init env640).2.2.1.mp h1,
    (plot_bounds Graph.init env640).2.2.2.1.mp h2⟩

end GraphWidget
